import Mathlib

/-!
Shallow embedding of the watch-cycle engine of the `github-notify-ext`
repository (`src/background/index.ts`) and of the popup acknowledgement
logic (`markAsReadAndUpdate` in the popup component).

Modelling conventions:
* Timestamps (`createdAt`, `updatedAt`, `lastCheckedAt`, `nowIso`) are `Int`
  values standing for milliseconds since the Unix epoch; the source compares
  `new Date(a) > new Date(b)` on ISO-8601 strings, which is exactly the
  numeric comparison of the parsed instants.  `new Date(0).toISOString()`
  (the first-run default of line 187) is the epoch, i.e. `0`.
* JS strings are Lean `String`s.  `String.prototype.includes` is modelled by
  `jsIncludes` (substring occurrence), `Array.prototype.join` by `jsJoin`,
  and `String.prototype.trim` by `jsTrim`.
* The two GraphQL calls and the viewer-identity call are the only failure
  points of a cycle (`await client(...)` can throw); the environment `Env`
  supplies each response as an `Except Unit _` oracle.  `chrome.storage`
  callbacks never reject in the source, so storage reads/writes are total.
* Chrome storage is modelled by `StorageState`; the module-level
  `runtimeState` of the source by `RuntimeState`.
-/

/-- One character list occurs contiguously inside another (models
`String.prototype.includes` at the character level): either the needle is a
prefix here, or it occurs in the tail. -/
def substrAt (needle : List Char) : List Char → Bool
  | [] => needle.isEmpty
  | hay@(_ :: rest) => needle.isPrefixOf hay || substrAt needle rest

/-- Model of JS `hay.includes(needle)`. -/
def jsIncludes (hay needle : String) : Bool :=
  substrAt needle.data hay.data

/-- Model of JS `Array.prototype.join(sep)` on a list of strings. -/
def jsJoin (sep : String) : List String → String
  | [] => ""
  | a :: rest => rest.foldl (fun acc x => acc ++ sep ++ x) a

/-- Character-level trim: drop leading whitespace, then trailing whitespace. -/
def jsTrimList (l : List Char) : List Char :=
  ((l.dropWhile Char.isWhitespace).reverse.dropWhile Char.isWhitespace).reverse

/-- Model of JS `String.prototype.trim`. -/
def jsTrim (s : String) : String :=
  ⟨jsTrimList s.data⟩

/-- One repository to poll (`WatchTargetRepo` in the source). -/
structure WatchTargetRepo where
  owner : String
  name : String
deriving DecidableEq, Repr

/-- The configuration read from `chrome.storage.sync` (`Settings`). -/
structure Settings where
  pat : String
  repos : List WatchTargetRepo
  intervalMinutes : Int
  enableNewItems : Bool
  enableMentions : Bool
  enableMentionThreads : Bool
  enableAssigneeComments : Bool
deriving DecidableEq, Repr

/-- The module-level `runtimeState` of the background script. -/
structure RuntimeState where
  viewerLogin : Option String
  lastCheckedAt : Option Int
deriving DecidableEq, Repr

/-- Notification category (`NotificationKind`). -/
inductive NotificationKind where
  | new
  | mention
  | thread
  | assignee
deriving DecidableEq, Repr

/-- The string the source interpolates for each kind when building the
dedup id `` `${kind}:${nodeId}` ``. -/
def NotificationKind.str : NotificationKind → String
  | .new => "new"
  | .mention => "mention"
  | .thread => "thread"
  | .assignee => "assignee"

/-- A persisted notification record (`StoredNotification`). -/
structure StoredNotification where
  id : String
  kind : NotificationKind
  isPullRequest : Bool
  owner : String
  repo : String
  number : Int
  title : String
  url : String
  detectedAt : Int
deriving DecidableEq, Repr

/-- One comment of a fetched issue / pull request (`comments.nodes` entries
of the item-search response). -/
structure ItemComment where
  body : String
  author : String
  createdAt : Int
  updatedAt : Int
deriving DecidableEq, Repr

/-- One node of the item-search response (an Issue or PullRequest snapshot).
`isPullRequest` stands for the source's `node.__typename === 'PullRequest'`
test on the raw response; `owner`/`repo` are `repository.owner.login` and
`repository.name`. -/
structure ItemNode where
  id : String
  number : Int
  title : String
  url : String
  createdAt : Int
  updatedAt : Int
  owner : String
  repo : String
  isPullRequest : Bool
  body : String
  assignees : List String
  comments : List ItemComment
deriving DecidableEq, Repr

/-- One comment of a review thread (ordered by creation time ascending in
the fetched response, as requested by the thread query). -/
structure ThreadComment where
  id : String
  body : String
  author : String
  createdAt : Int
deriving DecidableEq, Repr

/-- One review thread of the thread-search response. -/
structure ReviewThread where
  id : String
  isResolved : Bool
  comments : List ThreadComment
deriving DecidableEq, Repr

/-- One pull-request node of the thread-search response. -/
structure PrNode where
  id : String
  number : Int
  title : String
  url : String
  owner : String
  repo : String
  isPullRequest : Bool
  reviewThreads : List ReviewThread
deriving DecidableEq, Repr

/-- The persisted `chrome.storage.local` document used by the engine. -/
structure StorageState where
  notifications : List StoredNotification
  badgeCount : Int
  readNotificationIds : List String
  lastCheckedAt : Option Int
deriving DecidableEq, Repr

/-- The full mutable state the engine touches: the module-level runtime
state plus local storage. -/
structure St where
  runtime : RuntimeState
  storage : StorageState
deriving DecidableEq, Repr

/-- Model of `buildRepoQuery` (lines 152–167): repo-scoping clause as an OR
of `repo:owner/name` (omitted when the list is empty), the `is:open`
restriction, and the OR of the three condition predicates, with a final
`.trim()`. -/
def buildRepoQuery (repos : List WatchTargetRepo) (lastCheckedAt : String)
    (viewerLogin : String) : String :=
  let repoPart :=
    if repos.isEmpty then ""
    else "(" ++ jsJoin " OR " (repos.map (fun r => "repo:" ++ r.owner ++ "/" ++ r.name)) ++ ")"
  let conditionPart :=
    jsJoin " OR "
      ["created:>" ++ lastCheckedAt, "mentions:" ++ viewerLogin, "assignee:" ++ viewerLogin]
  jsTrim (repoPart ++ " is:open (" ++ conditionPart ++ ")")

/-- The is-new test of line 272: `new Date(node.createdAt) > new Date(lastCheckedAt)`. -/
def isNewItem (lastCheckedAt : Int) (n : ItemNode) : Bool :=
  decide (lastCheckedAt < n.createdAt)

/-- The mention test of lines 280–285: the literal token `"@" + viewerLogin`
occurs in the item body or in any fetched comment body (the source skips
falsy, i.e. empty, text targets first). -/
def itemHasMention (viewerLogin : String) (n : ItemNode) : Bool :=
  let mentionToken := "@" ++ viewerLogin
  let textTargets := n.body :: n.comments.map (fun c => c.body)
  textTargets.any (fun t => !t.isEmpty && jsIncludes t mentionToken)

/-- Output of the first classification pass (the `for` loop of
lines 271–304): the four per-category accumulator arrays, in search order. -/
structure ClassifyResult where
  newItems : List ItemNode
  mentionItems : List ItemNode
  assigneeCommentItems : List ItemNode
  updatedPrIds : List String
deriving DecidableEq, Repr

/-- First classification pass over the item-search nodes (lines 271–304).
Each filter reproduces one `if`-guarded `push` of the loop; filtering
preserves the encounter order exactly as the pushes do. -/
def classifyItems (s : Settings) (viewerLogin : String) (lastCheckedAt : Int)
    (items : List ItemNode) : ClassifyResult where
  newItems := items.filter (fun n => s.enableNewItems && isNewItem lastCheckedAt n)
  mentionItems := items.filter (fun n => s.enableMentions && itemHasMention viewerLogin n)
  assigneeCommentItems := items.filter (fun n =>
    s.enableAssigneeComments
      && n.assignees.any (fun a => a == viewerLogin)
      && n.comments.any (fun c => decide (lastCheckedAt < c.updatedAt)))
  updatedPrIds :=
    (items.filter (fun n => n.isPullRequest && decide (lastCheckedAt < n.updatedAt))).map
      (fun n => n.id)

/-- The per-thread test of lines 353–377: resolved threads and threads with
no fetched comments are skipped; otherwise the thread qualifies when some
comment created at-or-before the checkpoint contains the mention token and
the last fetched comment (`comments[comments.length - 1]`) was created
strictly after the checkpoint. -/
def threadQualifies (viewerLogin : String) (lastCheckedAt : Int) (t : ReviewThread) : Bool :=
  if t.isResolved then false
  else if t.comments.isEmpty then false
  else
    let mentionToken := "@" ++ viewerLogin
    let hadMentionBefore := t.comments.any (fun c =>
      decide (c.createdAt ≤ lastCheckedAt) && jsIncludes c.body mentionToken)
    match t.comments.getLast? with
    | none => false
    | some lastComment => hadMentionBefore && decide (lastCheckedAt < lastComment.createdAt)

/-- Second classification pass (lines 351–379): for every PR of the
thread-search response, collect `(pr, thread)` for each qualifying thread
(the source also keeps `lastComment` in the record, but only `pr` is used
downstream). -/
def collectMentionThreadItems (viewerLogin : String) (lastCheckedAt : Int)
    (prs : List PrNode) : List (PrNode × ReviewThread) :=
  prs.flatMap (fun pr =>
    (pr.reviewThreads.filter (threadQualifies viewerLogin lastCheckedAt)).map
      (fun t => (pr, t)))

/-- Conversion of an item-search node to a stored notification
(`toStored`, lines 385–407), with the dedup id `kind ++ ":" ++ nodeId`. -/
def toStoredItem (detectedAt : Int) (kind : NotificationKind) (n : ItemNode) :
    StoredNotification where
  id := kind.str ++ ":" ++ n.id
  kind := kind
  isPullRequest := n.isPullRequest
  owner := n.owner
  repo := n.repo
  number := n.number
  title := n.title
  url := n.url
  detectedAt := detectedAt

/-- Conversion of a thread-search PR node to a `thread`-kind stored
notification (the `toStored(pr, 'thread')` call of line 429). -/
def toStoredPr (detectedAt : Int) (pr : PrNode) : StoredNotification where
  id := NotificationKind.thread.str ++ ":" ++ pr.id
  kind := NotificationKind.thread
  isPullRequest := pr.isPullRequest
  owner := pr.owner
  repo := pr.repo
  number := pr.number
  title := pr.title
  url := pr.url
  detectedAt := detectedAt

/-- Assembly of the cycle's flat candidate list `collected`
(lines 409–431): new items first, then mentions, then assignee comments,
then thread candidates. -/
def buildCollected (detectedAt : Int) (cls : ClassifyResult)
    (threadItems : List (PrNode × ReviewThread)) : List StoredNotification :=
  cls.newItems.map (toStoredItem detectedAt .new)
    ++ cls.mentionItems.map (toStoredItem detectedAt .mention)
    ++ cls.assigneeCommentItems.map (toStoredItem detectedAt .assignee)
    ++ threadItems.map (fun pt => toStoredPr detectedAt pt.1)

/-- The store merge of lines 436–465: the id set of the already-persisted
list is computed once (`new Set(existing.map(n => n.id))`, never updated
inside the loop), each candidate whose id is not in that set is appended in
order, and the badge counter grows by the number of appended entries. -/
def mergeStep (existing : List StoredNotification) (badgeCount : Int)
    (collected : List StoredNotification) : List StoredNotification × Int :=
  let existingIds := existing.map (fun n => n.id)
  let appended := collected.filter (fun n => !existingIds.contains n.id)
  (existing ++ appended, badgeCount + appended.length)

/-- Which remote requests a cycle issues. -/
inductive RemoteCall where
  | viewer
  | search
  | threads
deriving DecidableEq, Repr

/-- The environment of one cycle invocation: the settings `loadSettings`
resolves (already `null` when the stored PAT is falsy or the repo value is
not an array), the cycle-start instant `now` (`new Date().toISOString()`),
and the three remote responses, each of which may fail. -/
structure Env where
  settings : Option Settings
  now : Int
  viewerResult : Except Unit String
  searchResult : Except Unit (List ItemNode)
  threadsResult : Except Unit (List PrNode)

/-- Result of one cycle: the state afterwards, the remote calls issued in
order, and whether the cycle ran to completion (`ok = false` means an
exception escaped `runWatchCycle`). -/
structure CycleOutcome where
  state : St
  calls : List RemoteCall
  ok : Bool
deriving Repr

/-- Merge-and-save tail of the cycle (lines 433–468): when `collected` is
non-empty, merge it into the persisted list and badge counter; then
`saveLastCheckedAt(nowIso)` writes the cycle-start instant to both the
runtime state and storage. -/
def mergePhase (env : Env) (st : St) (calls : List RemoteCall) (cls : ClassifyResult)
    (threadItems : List (PrNode × ReviewThread)) : CycleOutcome :=
  let collected := buildCollected env.now cls threadItems
  let storage1 :=
    if collected.isEmpty then st.storage
    else
      let m := mergeStep st.storage.notifications st.storage.badgeCount collected
      { st.storage with notifications := m.1, badgeCount := m.2 }
  { state :=
      { runtime := { st.runtime with lastCheckedAt := some env.now }
        storage := { storage1 with lastCheckedAt := some env.now } }
    calls := calls
    ok := true }

/-- Thread phase (lines 306–380): when mention threads are enabled and some
updated PR ids were collected, issue the thread search (a failure aborts the
cycle); otherwise no thread candidates. -/
def threadPhase (env : Env) (st : St) (s : Settings) (viewerLogin : String)
    (calls : List RemoteCall) (items : List ItemNode) : CycleOutcome :=
  if s.enableMentionThreads
      && !(classifyItems s viewerLogin (st.runtime.lastCheckedAt.getD 0) items).updatedPrIds.isEmpty then
    match env.threadsResult with
    | .error _ => { state := st, calls := calls ++ [.threads], ok := false }
    | .ok prs =>
        mergePhase env st (calls ++ [.threads])
          (classifyItems s viewerLogin (st.runtime.lastCheckedAt.getD 0) items)
          (collectMentionThreadItems viewerLogin (st.runtime.lastCheckedAt.getD 0) prs)
  else mergePhase env st calls
    (classifyItems s viewerLogin (st.runtime.lastCheckedAt.getD 0) items) []

/-- Item-search phase (lines 192–263): the search query built by
`buildRepoQuery` is sent to the remote; a failure aborts the cycle with the
state unchanged beyond the possibly-cached viewer login. -/
def searchPhase (env : Env) (st : St) (s : Settings) (viewerLogin : String)
    (calls : List RemoteCall) : CycleOutcome :=
  match env.searchResult with
  | .error _ => { state := st, calls := calls ++ [.search], ok := false }
  | .ok items => threadPhase env st s viewerLogin (calls ++ [.search]) items

/-- Cache update of `ensureViewerLogin` (line 138). -/
def stWithLogin (st : St) (viewerLogin : String) : St :=
  { st with runtime := { st.runtime with viewerLogin := some viewerLogin } }

/-- Body of the cycle after the configuration guard: resolve the viewer
identity (cached in the runtime state; a fetch failure aborts the cycle),
then run the search, thread and merge phases. -/
def runWatchCycleAux (env : Env) (st : St) (s : Settings) : CycleOutcome :=
  match st.runtime.viewerLogin with
  | some viewerLogin => searchPhase env st s viewerLogin []
  | none =>
    match env.viewerResult with
    | .error _ => { state := st, calls := [.viewer], ok := false }
    | .ok viewerLogin => searchPhase env (stWithLogin st viewerLogin) s viewerLogin [.viewer]

/-- Model of `runWatchCycle` (lines 178–469).  The guard of lines 179–182
(`!settings || !settings.pat || settings.repos.length === 0`) silently
aborts the cycle before any remote interaction. -/
def runWatchCycle (env : Env) (st : St) : CycleOutcome :=
  match env.settings with
  | none => { state := st, calls := [], ok := true }
  | some s =>
    if s.pat == "" || s.repos.isEmpty then { state := st, calls := [], ok := true }
    else runWatchCycleAux env st s

/-- Model of a JS `Set` built from a string list: keep the first occurrence
of each element, in insertion order. -/
def jsSetOfList (seen : List String) : List String → List String
  | [] => []
  | a :: rest =>
    if seen.contains a then jsSetOfList seen rest
    else a :: jsSetOfList (a :: seen) rest

/-- Model of the popup's `markAsReadAndUpdate` (part_004, lines 420–458):
add the id to the read set unless already present, drop every read id from
the notification list, and set the badge counter to
`Math.max(0, badgeCount - 1)` — the decrement is unconditional. -/
def markAsReadAndUpdate (storage : StorageState) (notifId : String) : StorageState :=
  let readSet := jsSetOfList [] storage.readNotificationIds
  let readSet1 := if readSet.contains notifId then readSet else readSet ++ [notifId]
  let remaining := storage.notifications.filter (fun n => !readSet1.contains n.id)
  let newBadgeCount := max 0 (storage.badgeCount - 1)
  { notifications := remaining
    readNotificationIds := readSet1
    badgeCount := newBadgeCount
    lastCheckedAt := storage.lastCheckedAt }

/-- A finite sequence of acknowledgement operations applied in order. -/
def applyAcks (storage : StorageState) (ids : List String) : StorageState :=
  ids.foldl markAsReadAndUpdate storage

/-!
Helper lemmas about the string model.
-/

theorem substrAt_iff_infix (n : List Char) : ∀ h : List Char, substrAt n h = true ↔ n <:+: h := by
  intro h
  induction h with
  | nil => simp [substrAt, List.isEmpty_iff]
  | cons c rest ih => simp [substrAt, List.infix_cons_iff, ih]

theorem jsIncludes_iff (hay needle : String) :
    jsIncludes hay needle = true ↔ needle.data <:+: hay.data :=
  substrAt_iff_infix needle.data hay.data

theorem dropWhile_eq_self_of_head (p : Char → Bool) (l : List Char)
    (h : ∀ c, l.head? = some c → p c = false) : l.dropWhile p = l := by
  cases l with
  | nil => rfl
  | cons a t => simp [List.dropWhile_cons, h a rfl]

theorem jsTrim_eq_self (s : String)
    (h1 : ∀ c, s.data.head? = some c → c.isWhitespace = false)
    (h2 : ∀ c, s.data.getLast? = some c → c.isWhitespace = false) : jsTrim s = s := by
  unfold jsTrim jsTrimList
  rw [dropWhile_eq_self_of_head _ _ h1]
  rw [dropWhile_eq_self_of_head _ _ (by simpa using h2)]
  simp

theorem jsTrim_leading_space (s : String)
    (h1 : ∀ c, s.data.head? = some c → c.isWhitespace = false)
    (h2 : ∀ c, s.data.getLast? = some c → c.isWhitespace = false) :
    jsTrim (" " ++ s) = s := by
  unfold jsTrim jsTrimList
  have hdata : (" " ++ s).data = ' ' :: s.data := by
    simp [show (" " : String).data = [' '] from rfl]
  rw [hdata]
  rw [List.dropWhile_cons_of_pos (by decide)]
  rw [dropWhile_eq_self_of_head _ _ h1]
  rw [dropWhile_eq_self_of_head _ _ (by simpa using h2)]
  simp

theorem buildRepoQuery_eq_of_nil (cp login : String) :
    buildRepoQuery [] cp login =
      "is:open (created:>" ++ cp ++ " OR mentions:" ++ login ++ " OR assignee:" ++ login ++ ")" := by
  rw [show buildRepoQuery [] cp login
        = jsTrim ("" ++ " is:open ("
            ++ jsJoin " OR " ["created:>" ++ cp, "mentions:" ++ login, "assignee:" ++ login] ++ ")")
      from rfl]
  have harg : ("" ++ " is:open ("
      ++ jsJoin " OR " ["created:>" ++ cp, "mentions:" ++ login, "assignee:" ++ login] ++ ")")
      = " " ++ ("is:open (created:>" ++ cp ++ " OR mentions:" ++ login
          ++ " OR assignee:" ++ login ++ ")") := by
    apply String.ext
    simp [jsJoin, List.append_assoc]
  rw [harg]
  apply jsTrim_leading_space
  · intro c hc
    simp [List.append_assoc] at hc
    subst hc
    decide
  · intro c hc
    rw [String.data_append, show (")" : String).data = [')'] from rfl,
      List.getLast?_concat] at hc
    injection hc with h
    subst h
    decide

theorem buildRepoQuery_eq_of_cons (r0 : WatchTargetRepo) (rest : List WatchTargetRepo)
    (cp login : String) :
    buildRepoQuery (r0 :: rest) cp login =
      "(" ++ jsJoin " OR " ((r0 :: rest).map (fun r => "repo:" ++ r.owner ++ "/" ++ r.name))
        ++ ") is:open (created:>" ++ cp ++ " OR mentions:" ++ login
        ++ " OR assignee:" ++ login ++ ")" := by
  rw [show buildRepoQuery (r0 :: rest) cp login
        = jsTrim (("(" ++ jsJoin " OR "
              ((r0 :: rest).map (fun r => "repo:" ++ r.owner ++ "/" ++ r.name)) ++ ")")
            ++ " is:open ("
            ++ jsJoin " OR " ["created:>" ++ cp, "mentions:" ++ login, "assignee:" ++ login] ++ ")")
      from rfl]
  have harg : (("(" ++ jsJoin " OR "
        ((r0 :: rest).map (fun r => "repo:" ++ r.owner ++ "/" ++ r.name)) ++ ")")
      ++ " is:open ("
      ++ jsJoin " OR " ["created:>" ++ cp, "mentions:" ++ login, "assignee:" ++ login] ++ ")")
      = "(" ++ jsJoin " OR " ((r0 :: rest).map (fun r => "repo:" ++ r.owner ++ "/" ++ r.name))
        ++ ") is:open (created:>" ++ cp ++ " OR mentions:" ++ login
        ++ " OR assignee:" ++ login ++ ")" := by
    apply String.ext
    simp [jsJoin, List.append_assoc]
  rw [harg]
  apply jsTrim_eq_self
  · intro c hc
    simp [List.append_assoc] at hc
    subst hc
    decide
  · intro c hc
    rw [String.data_append, show (")" : String).data = [')'] from rfl,
      List.getLast?_concat] at hc
    injection hc with h
    subst h
    decide

/-- C7: for a non-empty repo list, `buildRepoQuery` returns
`(repo:o1/n1 OR ... OR repo:ok/nk) is:open (created:>C OR mentions:login OR assignee:login)`;
for the empty repo list it returns the same string with the repo-scoping
clause omitted entirely and no leading whitespace; in every case the query
contains the `is:open` restriction and the three OR'd condition predicates. -/
theorem build_repo_query_shape (repos : List WatchTargetRepo) (cp login : String) :
    (repos = [] →
      buildRepoQuery repos cp login =
        "is:open (created:>" ++ cp ++ " OR mentions:" ++ login
          ++ " OR assignee:" ++ login ++ ")")
    ∧ (repos ≠ [] →
      buildRepoQuery repos cp login =
        "(" ++ jsJoin " OR " (repos.map (fun r => "repo:" ++ r.owner ++ "/" ++ r.name))
          ++ ") is:open (created:>" ++ cp ++ " OR mentions:" ++ login
          ++ " OR assignee:" ++ login ++ ")")
    ∧ jsIncludes (buildRepoQuery repos cp login) "is:open" = true
    ∧ jsIncludes (buildRepoQuery repos cp login) ("created:>" ++ cp) = true
    ∧ jsIncludes (buildRepoQuery repos cp login) ("mentions:" ++ login) = true
    ∧ jsIncludes (buildRepoQuery repos cp login) ("assignee:" ++ login) = true := by
  cases repos with
  | nil =>
    refine ⟨fun _ => buildRepoQuery_eq_of_nil cp login, fun h => absurd rfl h, ?_, ?_, ?_, ?_⟩
    · rw [buildRepoQuery_eq_of_nil cp login, jsIncludes_iff]
      exact ⟨[], (" (created:>" ++ cp ++ " OR mentions:" ++ login
        ++ " OR assignee:" ++ login ++ ")").data, by simp [List.append_assoc]⟩
    · rw [buildRepoQuery_eq_of_nil cp login, jsIncludes_iff]
      exact ⟨("is:open (" : String).data, (" OR mentions:" ++ login
        ++ " OR assignee:" ++ login ++ ")").data, by simp [List.append_assoc]⟩
    · rw [buildRepoQuery_eq_of_nil cp login, jsIncludes_iff]
      exact ⟨("is:open (created:>" ++ cp ++ " OR ").data,
        (" OR assignee:" ++ login ++ ")").data, by simp [List.append_assoc]⟩
    · rw [buildRepoQuery_eq_of_nil cp login, jsIncludes_iff]
      exact ⟨("is:open (created:>" ++ cp ++ " OR mentions:" ++ login ++ " OR ").data,
        ((")" : String)).data, by simp [List.append_assoc]⟩
  | cons r0 rest =>
    refine ⟨fun h => absurd h (by simp), fun _ => buildRepoQuery_eq_of_cons r0 rest cp login,
      ?_, ?_, ?_, ?_⟩
    · rw [buildRepoQuery_eq_of_cons r0 rest cp login, jsIncludes_iff]
      exact ⟨("(" ++ jsJoin " OR "
          ((r0 :: rest).map (fun r => "repo:" ++ r.owner ++ "/" ++ r.name)) ++ ") ").data,
        (" (created:>" ++ cp ++ " OR mentions:" ++ login
          ++ " OR assignee:" ++ login ++ ")").data, by simp [List.append_assoc]⟩
    · rw [buildRepoQuery_eq_of_cons r0 rest cp login, jsIncludes_iff]
      exact ⟨("(" ++ jsJoin " OR "
          ((r0 :: rest).map (fun r => "repo:" ++ r.owner ++ "/" ++ r.name)) ++ ") is:open (").data,
        (" OR mentions:" ++ login ++ " OR assignee:" ++ login ++ ")").data,
        by simp [List.append_assoc]⟩
    · rw [buildRepoQuery_eq_of_cons r0 rest cp login, jsIncludes_iff]
      exact ⟨("(" ++ jsJoin " OR "
          ((r0 :: rest).map (fun r => "repo:" ++ r.owner ++ "/" ++ r.name))
          ++ ") is:open (created:>" ++ cp ++ " OR ").data,
        (" OR assignee:" ++ login ++ ")").data, by simp [List.append_assoc]⟩
    · rw [buildRepoQuery_eq_of_cons r0 rest cp login, jsIncludes_iff]
      exact ⟨("(" ++ jsJoin " OR "
          ((r0 :: rest).map (fun r => "repo:" ++ r.owner ++ "/" ++ r.name))
          ++ ") is:open (created:>" ++ cp ++ " OR mentions:" ++ login ++ " OR ").data,
        ((")" : String)).data, by simp [List.append_assoc]⟩

theorem threadQualifies_iff (login : String) (cp : Int) (t : ReviewThread) :
    threadQualifies login cp t = true ↔
      t.isResolved = false
        ∧ (∃ c ∈ t.comments, c.createdAt ≤ cp ∧ jsIncludes c.body ("@" ++ login) = true)
        ∧ (∃ lastC, t.comments.getLast? = some lastC ∧ cp < lastC.createdAt) := by
  unfold threadQualifies
  cases hres : t.isResolved with
  | true => simp [hres]
  | false =>
    cases hcs : t.comments with
    | nil => simp
    | cons c0 cs =>
      obtain ⟨lastC, hl⟩ : ∃ y, (c0 :: cs).getLast? = some y := by
        cases h : (c0 :: cs).getLast? with
        | none => exact absurd (List.getLast?_eq_none_iff.mp h) (by simp)
        | some y => exact ⟨y, rfl⟩
      simp [hl, List.any_eq_true, and_assoc]

/-- C5: a thread candidate, identified by the parent pull request, is produced
for a thread if and only if the pull request is in the thread-search response,
the thread is unresolved, some comment created at-or-before the checkpoint
contains the mention token `"@" ++ viewerLogin` as a substring, and the
chronologically last fetched comment was created strictly after the
checkpoint; a resolved thread, or a thread with no fetched comments, never
produces a candidate.  The stored id of the candidate is keyed by the parent
pull request's node id. -/
theorem thread_candidate_rule (login : String) (cp : Int) (prs : List PrNode)
    (pr : PrNode) (t : ReviewThread) (d : Int) :
    ((pr, t) ∈ collectMentionThreadItems login cp prs ↔
      pr ∈ prs ∧ t ∈ pr.reviewThreads ∧ t.isResolved = false
        ∧ (∃ c ∈ t.comments, c.createdAt ≤ cp ∧ jsIncludes c.body ("@" ++ login) = true)
        ∧ (∃ lastC, t.comments.getLast? = some lastC ∧ cp < lastC.createdAt))
    ∧ (toStoredPr d pr).id = "thread:" ++ pr.id := by
  constructor
  · rw [← threadQualifies_iff login cp t, collectMentionThreadItems]
    simp only [List.mem_flatMap, List.mem_map, List.mem_filter, Prod.mk.injEq]
    constructor
    · rintro ⟨pr', hpr', t', ⟨ht', hq⟩, rfl, rfl⟩
      exact ⟨hpr', ht', hq⟩
    · rintro ⟨hpr, ht, hq⟩
      exact ⟨pr, hpr, t, ⟨ht, hq⟩, rfl, rfl⟩
  · rfl

/-- C6: the is-new signal holds iff `createdAt > checkpoint` with strict
inequality (an item created exactly at the checkpoint is not new), and a
new-kind candidate is produced exactly when in addition the new-items enable
flag is set. -/
theorem is_new_strict (cp : Int) (n : ItemNode) (s : Settings) (login : String)
    (items : List ItemNode) :
    (isNewItem cp n = true ↔ n.createdAt > cp)
    ∧ (n.createdAt = cp → isNewItem cp n = false)
    ∧ (n ∈ (classifyItems s login cp items).newItems ↔
        n ∈ items ∧ s.enableNewItems = true ∧ isNewItem cp n = true) := by
  refine ⟨?_, ?_, ?_⟩
  · simp [isNewItem, gt_iff_lt]
  · intro h
    simp [isNewItem, h]
  · simp [classifyItems, List.mem_filter, and_assoc]

theorem contains_iff_mem (l : List String) (a : String) : l.contains a = true ↔ a ∈ l := by
  simp [List.contains_eq_any_beq, List.any_eq_true, eq_comm]

theorem mergeStep_fst (ex : List StoredNotification) (b : Int) (c : List StoredNotification) :
    (mergeStep ex b c).1
      = ex ++ c.filter (fun n => !(ex.map (fun m => m.id)).contains n.id) := rfl

theorem mergeStep_snd (ex : List StoredNotification) (b : Int) (c : List StoredNotification) :
    (mergeStep ex b c).2
      = b + (c.filter (fun n => !(ex.map (fun m => m.id)).contains n.id)).length := rfl

theorem countP_filter_out (ex c : List StoredNotification) (x : String)
    (hx : x ∈ ex.map (fun n => n.id)) :
    (c.filter (fun n => !(ex.map (fun m => m.id)).contains n.id)).countP
      (fun n => n.id == x) = 0 := by
  apply List.countP_eq_zero.mpr
  intro a ha hpa
  rw [List.mem_filter] at ha
  rw [beq_iff_eq] at hpa
  have hmem : a.id ∈ ex.map (fun m => m.id) := hpa ▸ hx
  have hfalse : ∀ y ∈ ex, ¬y.id = a.id := by simpa using ha.2
  rw [List.mem_map] at hmem
  obtain ⟨y, hy, hyid⟩ := hmem
  exact hfalse y hy hyid

theorem countP_filter_keep (ex c : List StoredNotification) (x : String)
    (hx : x ∉ ex.map (fun n => n.id)) :
    (c.filter (fun n => !(ex.map (fun m => m.id)).contains n.id)).countP
      (fun n => n.id == x) = c.countP (fun n => n.id == x) := by
  rw [List.countP_filter]
  apply List.countP_congr
  intro a _
  by_cases hpa : a.id = x
  · have hff : (ex.map (fun m => m.id)).contains a.id = false := by
      cases hcc : (ex.map (fun m => m.id)).contains a.id with
      | false => rfl
      | true => exact absurd (hpa ▸ (contains_iff_mem _ _).mp hcc) hx
    rw [hff]
    simp [hpa]
  · simp [hpa]

theorem mergeStep_countP (ex : List StoredNotification) (b : Int)
    (c : List StoredNotification) (x : String) :
    (mergeStep ex b c).1.countP (fun n => n.id == x)
      = ex.countP (fun n => n.id == x)
        + (if x ∈ ex.map (fun n => n.id) then 0 else c.countP (fun n => n.id == x)) := by
  rw [mergeStep_fst, List.countP_append]
  by_cases hx : x ∈ ex.map (fun n => n.id)
  · rw [if_pos hx, countP_filter_out ex c x hx]
  · rw [if_neg hx, countP_filter_keep ex c x hx]

theorem mem_ids_mergeStep (ex : List StoredNotification) (b : Int)
    (c : List StoredNotification) (x : String)
    (h : x ∈ ex.map (fun n => n.id) ∨ x ∈ c.map (fun n => n.id)) :
    x ∈ (mergeStep ex b c).1.map (fun n => n.id) := by
  rw [mergeStep_fst, List.map_append, List.mem_append]
  by_cases hx : x ∈ ex.map (fun n => n.id)
  · exact Or.inl hx
  · rcases h with h | h
    · exact absurd h hx
    · right
      rw [List.mem_map] at h ⊢
      obtain ⟨a, ha, rfl⟩ := h
      refine ⟨a, ?_, rfl⟩
      rw [List.mem_filter]
      refine ⟨ha, ?_⟩
      cases hcc : (ex.map (fun m => m.id)).contains a.id with
      | false => rfl
      | true => exact absurd ((contains_iff_mem _ _).mp hcc) hx

theorem mergeStep_length (ex : List StoredNotification) (b : Int)
    (c : List StoredNotification) :
    (mergeStep ex b c).1.length
      = ex.length + (c.filter (fun n => !(ex.map (fun m => m.id)).contains n.id)).length := by
  rw [mergeStep_fst, List.length_append]

/-- C4: merge idempotence across cycles.  If a first merge's candidate batch
carries a candidate with id `x` exactly once and a second merge's batch again
contains candidates with id `x`, then the second merge appends nothing for
that id (the count of `x`-entries is unchanged), across the two merges the
persisted list gains at most one entry with id `x`, and the badge counter
grows exactly by the total number of appended entries (hence by at most one
on account of id `x`). -/
theorem merge_idempotent_across_cycles (store0 : List StoredNotification) (badge0 : Int)
    (b1 b2 : List StoredNotification) (x : String)
    (h1 : b1.countP (fun n => n.id == x) = 1) :
    (mergeStep (mergeStep store0 badge0 b1).1 (mergeStep store0 badge0 b1).2 b2).1.countP
        (fun n => n.id == x)
      = (mergeStep store0 badge0 b1).1.countP (fun n => n.id == x)
    ∧ (mergeStep (mergeStep store0 badge0 b1).1 (mergeStep store0 badge0 b1).2 b2).1.countP
        (fun n => n.id == x)
      ≤ store0.countP (fun n => n.id == x) + 1
    ∧ (mergeStep (mergeStep store0 badge0 b1).1 (mergeStep store0 badge0 b1).2 b2).2
      = badge0
        + (((mergeStep (mergeStep store0 badge0 b1).1 (mergeStep store0 badge0 b1).2 b2).1.length : Int)
            - (store0.length : Int)) := by
  have hxb1 : x ∈ b1.map (fun n => n.id) := by
    have hpos : 0 < b1.countP (fun n => n.id == x) := by omega
    rw [List.countP_pos_iff] at hpos
    obtain ⟨a, ha, hpa⟩ := hpos
    rw [beq_iff_eq] at hpa
    exact List.mem_map.mpr ⟨a, ha, hpa⟩
  have hx1 : x ∈ (mergeStep store0 badge0 b1).1.map (fun n => n.id) :=
    mem_ids_mergeStep store0 badge0 b1 x (Or.inr hxb1)
  have hc2 := mergeStep_countP (mergeStep store0 badge0 b1).1 (mergeStep store0 badge0 b1).2 b2 x
  have hc1 := mergeStep_countP store0 badge0 b1 x
  refine ⟨?_, ?_, ?_⟩
  · rw [hc2, if_pos hx1]
    omega
  · rw [hc2, if_pos hx1, hc1]
    by_cases hx0 : x ∈ store0.map (fun n => n.id)
    · rw [if_pos hx0]
      omega
    · rw [if_neg hx0]
      omega
  · rw [mergeStep_snd, mergeStep_snd, mergeStep_length, mergeStep_length]
    push_cast
    ring

theorem mem_jsSetOfList (a : String) :
    ∀ (l seen : List String), a ∈ jsSetOfList seen l ↔ (a ∈ l ∧ a ∉ seen) := by
  intro l
  induction l with
  | nil => simp [jsSetOfList]
  | cons b rest ih =>
    intro seen
    cases hcb : seen.contains b with
    | true =>
      rw [jsSetOfList, if_pos hcb, ih seen]
      have hbseen : b ∈ seen := (contains_iff_mem _ _).mp hcb
      constructor
      · rintro ⟨hr, hs⟩
        exact ⟨List.mem_cons_of_mem b hr, hs⟩
      · rintro ⟨hr, hs⟩
        rcases List.mem_cons.mp hr with rfl | hr
        · exact absurd hbseen hs
        · exact ⟨hr, hs⟩
    | false =>
      rw [jsSetOfList, if_neg (by rw [hcb]; simp), List.mem_cons, ih (b :: seen)]
      have hbseen : b ∉ seen := by
        intro hmem
        rw [(contains_iff_mem _ _).mpr hmem] at hcb
        cases hcb
      constructor
      · rintro (rfl | ⟨hr, hs⟩)
        · exact ⟨List.mem_cons_self a rest, hbseen⟩
        · rw [List.mem_cons] at hs
          push_neg at hs
          exact ⟨List.mem_cons_of_mem b hr, hs.2⟩
      · rintro ⟨hr, hs⟩
        rcases List.mem_cons.mp hr with rfl | hr
        · exact Or.inl rfl
        · by_cases hab : a = b
          · exact Or.inl hab
          · exact Or.inr ⟨hr, by simp [List.mem_cons, hab, hs]⟩

/-- C2 (amended): invoking `markAsReadAndUpdate` with an id already in the
persisted read set still sets the badge counter to
`max 0 (badgeCount - 1)` — the decrement is unconditional and merely floored
at 0, so the counter is left unchanged only when it is already ≤ 0; the read
set itself gains nothing. -/
theorem reack_badge_max_floor (storage : StorageState) (nid : String)
    (h : nid ∈ storage.readNotificationIds) :
    (markAsReadAndUpdate storage nid).badgeCount = max 0 (storage.badgeCount - 1)
    ∧ (markAsReadAndUpdate storage nid).readNotificationIds
        = jsSetOfList [] storage.readNotificationIds := by
  have hmem : nid ∈ jsSetOfList [] storage.readNotificationIds :=
    (mem_jsSetOfList nid _ _).mpr ⟨h, by simp⟩
  have hcontains : (jsSetOfList [] storage.readNotificationIds).contains nid = true :=
    (contains_iff_mem _ _).mpr hmem
  rw [markAsReadAndUpdate]
  simp [hcontains, hmem]

/-- C2 counterexample: acknowledging the id `"a"` that is already in the
persisted read set does NOT leave the badge counter unchanged — with the
counter at 1 it drops to 0, refuting the claim that re-acknowledgement is a
no-op for the counter. -/
theorem reack_decrements_badge_cex :
    (markAsReadAndUpdate
      { notifications := [], badgeCount := 1, readNotificationIds := ["a"],
        lastCheckedAt := none } "a").badgeCount ≠ (1 : Int) := by
  decide

theorem reack_badge_max_floor_witness :
    (markAsReadAndUpdate
      { notifications := [], badgeCount := 1, readNotificationIds := ["a"],
        lastCheckedAt := none } "a").badgeCount = max 0 ((1 : Int) - 1) :=
  (reack_badge_max_floor
    { notifications := [], badgeCount := 1, readNotificationIds := ["a"],
      lastCheckedAt := none } "a" (by decide)).1

theorem markAsReadAndUpdate_badge_nonneg (storage : StorageState) (nid : String) :
    0 ≤ (markAsReadAndUpdate storage nid).badgeCount := by
  rw [markAsReadAndUpdate]
  exact le_max_left 0 _

theorem applyAcks_badge_nonneg (ids : List String) :
    ∀ storage : StorageState, 0 ≤ storage.badgeCount →
      0 ≤ (applyAcks storage ids).badgeCount := by
  induction ids with
  | nil =>
    intro st h
    simpa [applyAcks] using h
  | cons i rest ih =>
    intro st h
    rw [show applyAcks st (i :: rest) = applyAcks (markAsReadAndUpdate st i) rest from rfl]
    exact ih _ (markAsReadAndUpdate_badge_nonneg st i)

/-- C9: starting from a non-negative badge counter, after every prefix of any
finite sequence of acknowledgement operations (any order, any repetitions)
the stored badge counter is ≥ 0. -/
theorem badge_floor_ack_seq (storage : StorageState) (ids : List String) (k : Nat)
    (h : 0 ≤ storage.badgeCount) :
    0 ≤ (applyAcks storage (ids.take k)).badgeCount :=
  applyAcks_badge_nonneg (ids.take k) storage h

theorem badge_floor_ack_seq_witness :
    0 ≤ (applyAcks
      { notifications := [], badgeCount := 0, readNotificationIds := [],
        lastCheckedAt := none } (["a", "a", "b"].take 2)).badgeCount :=
  badge_floor_ack_seq
    { notifications := [], badgeCount := 0, readNotificationIds := [],
      lastCheckedAt := none } ["a", "a", "b"] 2 (by decide)

theorem mergePhase_ok (env : Env) (st : St) (calls : List RemoteCall) (cls : ClassifyResult)
    (ti : List (PrNode × ReviewThread)) : (mergePhase env st calls cls ti).ok = true := rfl

theorem mergePhase_runtime_last (env : Env) (st : St) (calls : List RemoteCall)
    (cls : ClassifyResult) (ti : List (PrNode × ReviewThread)) :
    (mergePhase env st calls cls ti).state.runtime.lastCheckedAt = some env.now := rfl

theorem mergePhase_storage_last (env : Env) (st : St) (calls : List RemoteCall)
    (cls : ClassifyResult) (ti : List (PrNode × ReviewThread)) :
    (mergePhase env st calls cls ti).state.storage.lastCheckedAt = some env.now := rfl

theorem threadPhase_spec (env : Env) (st : St) (s : Settings) (login : String)
    (calls : List RemoteCall) (items : List ItemNode) :
    ((threadPhase env st s login calls items).ok = false →
      (threadPhase env st s login calls items).state = st)
    ∧ ((threadPhase env st s login calls items).ok = true →
      (threadPhase env st s login calls items).state.runtime.lastCheckedAt = some env.now
      ∧ (threadPhase env st s login calls items).state.storage.lastCheckedAt = some env.now) := by
  unfold threadPhase
  cases henv : env.threadsResult with
  | error e =>
    simp only [henv]
    split
    · exact ⟨fun _ => rfl, fun h => by simp at h⟩
    · exact ⟨fun h => by rw [mergePhase_ok] at h; simp at h, fun _ =>
        ⟨mergePhase_runtime_last _ _ _ _ _, mergePhase_storage_last _ _ _ _ _⟩⟩
  | ok prs =>
    simp only [henv]
    split
    · exact ⟨fun h => by rw [mergePhase_ok] at h; simp at h, fun _ =>
        ⟨mergePhase_runtime_last _ _ _ _ _, mergePhase_storage_last _ _ _ _ _⟩⟩
    · exact ⟨fun h => by rw [mergePhase_ok] at h; simp at h, fun _ =>
        ⟨mergePhase_runtime_last _ _ _ _ _, mergePhase_storage_last _ _ _ _ _⟩⟩

theorem searchPhase_spec (env : Env) (st : St) (s : Settings) (login : String)
    (calls : List RemoteCall) :
    ((searchPhase env st s login calls).ok = false →
      (searchPhase env st s login calls).state = st)
    ∧ ((searchPhase env st s login calls).ok = true →
      (searchPhase env st s login calls).state.runtime.lastCheckedAt = some env.now
      ∧ (searchPhase env st s login calls).state.storage.lastCheckedAt = some env.now) := by
  unfold searchPhase
  cases henv : env.searchResult with
  | error e => exact ⟨fun _ => rfl, fun h => by simp at h⟩
  | ok items => exact threadPhase_spec env st s login (calls ++ [.search]) items

theorem runWatchCycleAux_spec (env : Env) (st : St) (s : Settings) :
    ((runWatchCycleAux env st s).ok = false →
      (runWatchCycleAux env st s).state.runtime.lastCheckedAt = st.runtime.lastCheckedAt
      ∧ (runWatchCycleAux env st s).state.storage.lastCheckedAt = st.storage.lastCheckedAt)
    ∧ ((runWatchCycleAux env st s).ok = true →
      (runWatchCycleAux env st s).state.runtime.lastCheckedAt = some env.now
      ∧ (runWatchCycleAux env st s).state.storage.lastCheckedAt = some env.now) := by
  unfold runWatchCycleAux
  cases hv : st.runtime.viewerLogin with
  | some login =>
    have hsp := searchPhase_spec env st s login []
    refine ⟨fun h => ?_, hsp.2⟩
    rw [hsp.1 h]
    exact ⟨rfl, rfl⟩
  | none =>
    cases hvr : env.viewerResult with
    | error e => exact ⟨fun _ => ⟨rfl, rfl⟩, fun h => by simp at h⟩
    | ok login =>
      have hsp := searchPhase_spec env (stWithLogin st login) s login [.viewer]
      refine ⟨fun h => ?_, hsp.2⟩
      rw [hsp.1 h]
      exact ⟨rfl, rfl⟩

theorem runWatchCycle_eq_none (env : Env) (st : St) (h : env.settings = none) :
    runWatchCycle env st = { state := st, calls := [], ok := true } := by
  unfold runWatchCycle
  rw [h]

theorem runWatchCycle_eq_some (env : Env) (st : St) (s : Settings)
    (h : env.settings = some s) :
    runWatchCycle env st =
      if s.pat == "" || s.repos.isEmpty then { state := st, calls := [], ok := true }
      else runWatchCycleAux env st s := by
  unfold runWatchCycle
  rw [h]

/-- C3: checkpoint evolution.  A cycle that raises an exception (identity
resolution, item search, or thread search failure) leaves the runtime and
persisted checkpoints unchanged; a configuration-complete cycle that
completes successfully sets both checkpoints to the timestamp captured at
the start of the cycle before any fetch, and hence (whenever the clock did
not run backwards) the checkpoint never decreases. -/
theorem checkpoint_evolution (env : Env) (st : St) :
    ((runWatchCycle env st).ok = false →
      (runWatchCycle env st).state.runtime.lastCheckedAt = st.runtime.lastCheckedAt
      ∧ (runWatchCycle env st).state.storage.lastCheckedAt = st.storage.lastCheckedAt)
    ∧ (∀ s, env.settings = some s → ¬s.pat = "" → ¬s.repos = [] →
        (runWatchCycle env st).ok = true →
        (runWatchCycle env st).state.runtime.lastCheckedAt = some env.now
        ∧ (runWatchCycle env st).state.storage.lastCheckedAt = some env.now
        ∧ (st.runtime.lastCheckedAt.getD 0 ≤ env.now →
            st.runtime.lastCheckedAt.getD 0
              ≤ (runWatchCycle env st).state.runtime.lastCheckedAt.getD 0)) := by
  cases hset : env.settings with
  | none =>
    rw [runWatchCycle_eq_none env st hset]
    exact ⟨fun h => by simp at h, fun s hs => by cases hs⟩
  | some s =>
    rw [runWatchCycle_eq_some env st s hset]
    by_cases hguard : (s.pat == "" || s.repos.isEmpty) = true
    · rw [if_pos hguard]
      refine ⟨fun h => by simp at h, fun s' hs' hpat hrepos _ => ?_⟩
      injection hs' with hss
      subst hss
      rcases Bool.or_eq_true_iff.mp hguard with h1 | h2
      · exact absurd (by simpa using h1) hpat
      · exact absurd (by simpa using h2) hrepos
    · rw [if_neg hguard]
      have haux := runWatchCycleAux_spec env st s
      refine ⟨haux.1, fun s' hs' _ _ hok => ?_⟩
      obtain ⟨h1, h2⟩ := haux.2 hok
      refine ⟨h1, h2, fun hle => ?_⟩
      rw [h1]
      simpa using hle

theorem checkpoint_evolution_witness :
    (runWatchCycle
      { settings := some
          { pat := "p", repos := [⟨"o", "r"⟩], intervalMinutes := 5,
            enableNewItems := true, enableMentions := true,
            enableMentionThreads := true, enableAssigneeComments := true }
        now := 7
        viewerResult := .ok "alice"
        searchResult := .ok []
        threadsResult := .error () }
      { runtime := { viewerLogin := some "alice", lastCheckedAt := some 3 }
        storage := { notifications := [], badgeCount := 0, readNotificationIds := [],
                     lastCheckedAt := some 3 } }).state.runtime.lastCheckedAt = some 7 :=
  ((checkpoint_evolution _ _).2 _ rfl (by decide) (by decide) (by decide)).1

/-- C8: with a missing or empty credential, or an empty target-repo list,
`runWatchCycle` returns without error, issues no remote call, and leaves the
whole state (checkpoint, notification list, badge counter) unchanged. -/
theorem config_incomplete_noop (env : Env) (st : St)
    (h : env.settings = none ∨ ∃ s, env.settings = some s ∧ (s.pat = "" ∨ s.repos = [])) :
    runWatchCycle env st = { state := st, calls := [], ok := true } := by
  rcases h with h | ⟨s, hs, hcond⟩
  · exact runWatchCycle_eq_none env st h
  · rw [runWatchCycle_eq_some env st s hs]
    have hguard : (s.pat == "" || s.repos.isEmpty) = true := by
      rcases hcond with h1 | h2
      · simp [h1]
      · simp [h2]
    rw [if_pos hguard]

theorem config_incomplete_noop_witness :
    runWatchCycle
      { settings := some
          { pat := "p", repos := [], intervalMinutes := 5,
            enableNewItems := true, enableMentions := true,
            enableMentionThreads := true, enableAssigneeComments := true }
        now := 7
        viewerResult := .ok "alice"
        searchResult := .ok []
        threadsResult := .ok [] }
      { runtime := { viewerLogin := none, lastCheckedAt := none }
        storage := { notifications := [], badgeCount := 0, readNotificationIds := [],
                     lastCheckedAt := none } }
      = { state :=
            { runtime := { viewerLogin := none, lastCheckedAt := none }
              storage := { notifications := [], badgeCount := 0, readNotificationIds := [],
                           lastCheckedAt := none } }
          calls := []
          ok := true } :=
  config_incomplete_noop _ _ (Or.inr ⟨_, rfl, Or.inr rfl⟩)

theorem exists_mem_mergeStep_of_mem (ex : List StoredNotification) (b : Int)
    (c : List StoredNotification) (x : StoredNotification) (hx : x ∈ c) :
    ∃ e ∈ (mergeStep ex b c).1, e.id = x.id := by
  by_cases hid : x.id ∈ ex.map (fun n => n.id)
  · obtain ⟨e, he, heid⟩ := List.mem_map.mp hid
    exact ⟨e, by rw [mergeStep_fst]; exact List.mem_append_left _ he, heid⟩
  · refine ⟨x, ?_, rfl⟩
    rw [mergeStep_fst]
    apply List.mem_append_right
    rw [List.mem_filter]
    refine ⟨hx, ?_⟩
    cases hcc : (ex.map (fun m => m.id)).contains x.id with
    | false => rfl
    | true => exact absurd ((contains_iff_mem _ _).mp hcc) hid

theorem mergePhase_mem (env : Env) (st : St) (calls : List RemoteCall)
    (cls : ClassifyResult) (ti : List (PrNode × ReviewThread)) (x : StoredNotification)
    (hx : x ∈ buildCollected env.now cls ti) :
    ∃ e ∈ (mergePhase env st calls cls ti).state.storage.notifications, e.id = x.id := by
  have hne : (buildCollected env.now cls ti).isEmpty = false := by
    cases hc : buildCollected env.now cls ti with
    | nil => rw [hc] at hx; cases hx
    | cons a rest => rfl
  unfold mergePhase
  simp only [hne, Bool.false_eq_true, if_false]
  exact exists_mem_mergeStep_of_mem _ _ _ x hx

theorem mem_buildCollected_new (d : Int) (cls : ClassifyResult)
    (ti : List (PrNode × ReviewThread)) (n : ItemNode) (hn : n ∈ cls.newItems) :
    toStoredItem d .new n ∈ buildCollected d cls ti := by
  unfold buildCollected
  exact List.mem_append_left _ (List.mem_append_left _
    (List.mem_append_left _ (List.mem_map_of_mem _ hn)))

theorem threadPhase_mem_new (env : Env) (st : St) (s : Settings) (login : String)
    (calls : List RemoteCall) (items : List ItemNode) (n : ItemNode)
    (hcp : st.runtime.lastCheckedAt = none)
    (hok : (threadPhase env st s login calls items).ok = true)
    (hn : n ∈ items) (hflag : s.enableNewItems = true) (hnew : 0 < n.createdAt) :
    ∃ e ∈ (threadPhase env st s login calls items).state.storage.notifications,
      e.id = "new:" ++ n.id := by
  have hcls : n ∈ (classifyItems s login (st.runtime.lastCheckedAt.getD 0) items).newItems := by
    rw [hcp]
    simp [classifyItems, List.mem_filter, hn, hflag, isNewItem, hnew]
  have hid : (toStoredItem env.now .new n).id = "new:" ++ n.id := rfl
  unfold threadPhase at hok ⊢
  by_cases hif : (s.enableMentionThreads
      && !(classifyItems s login (st.runtime.lastCheckedAt.getD 0) items).updatedPrIds.isEmpty)
      = true
  · rw [if_pos hif] at hok ⊢
    cases henv : env.threadsResult with
    | error e =>
      rw [henv] at hok
      exact Bool.noConfusion hok
    | ok prs =>
      obtain ⟨e, he, heid⟩ := mergePhase_mem env st (calls ++ [.threads]) _ _
        (toStoredItem env.now .new n) (mem_buildCollected_new _ _ _ _ hcls)
      exact ⟨e, he, by rw [heid, hid]⟩
  · rw [if_neg hif] at hok ⊢
    obtain ⟨e, he, heid⟩ := mergePhase_mem env st calls _ []
      (toStoredItem env.now .new n) (mem_buildCollected_new _ _ _ _ hcls)
    exact ⟨e, he, by rw [heid, hid]⟩

theorem searchPhase_mem_new (env : Env) (st : St) (s : Settings) (login : String)
    (calls : List RemoteCall) (items : List ItemNode) (n : ItemNode)
    (hcp : st.runtime.lastCheckedAt = none)
    (hsearch : env.searchResult = Except.ok items)
    (hok : (searchPhase env st s login calls).ok = true)
    (hn : n ∈ items) (hflag : s.enableNewItems = true) (hnew : 0 < n.createdAt) :
    ∃ e ∈ (searchPhase env st s login calls).state.storage.notifications,
      e.id = "new:" ++ n.id := by
  unfold searchPhase at hok ⊢
  rw [hsearch] at hok ⊢
  exact threadPhase_mem_new env st s login (calls ++ [.search]) items n hcp hok hn hflag hnew

theorem runWatchCycleAux_mem_new (env : Env) (st : St) (s : Settings)
    (items : List ItemNode) (n : ItemNode)
    (hcp : st.runtime.lastCheckedAt = none)
    (hsearch : env.searchResult = Except.ok items)
    (hok : (runWatchCycleAux env st s).ok = true)
    (hn : n ∈ items) (hflag : s.enableNewItems = true) (hnew : 0 < n.createdAt) :
    ∃ e ∈ (runWatchCycleAux env st s).state.storage.notifications,
      e.id = "new:" ++ n.id := by
  unfold runWatchCycleAux at hok ⊢
  cases hv : st.runtime.viewerLogin with
  | some login =>
    rw [hv] at hok
    exact searchPhase_mem_new env st s login [] items n hcp hsearch hok hn hflag hnew
  | none =>
    rw [hv] at hok
    cases hvr : env.viewerResult with
    | error e =>
      rw [hvr] at hok
      exact Bool.noConfusion hok
    | ok login =>
      rw [hvr] at hok
      exact searchPhase_mem_new env (stWithLogin st login) s login [.viewer] items n hcp
        hsearch hok hn hflag hnew

/-- C10: when the runtime state holds no checkpoint (`lastCheckedAt` is
`none`, e.g. after a restart, regardless of what is persisted in storage),
the cycle uses the Unix epoch (0) as the exclusive lower bound, so with the
new-items flag enabled every fetched item created after the epoch is
classified as new and ends up in the persisted notification store under the
id `"new:" ++ nodeId` after a successful cycle. -/
theorem first_run_epoch_default (env : Env) (st : St) (s : Settings)
    (items : List ItemNode) (n : ItemNode)
    (hcp : st.runtime.lastCheckedAt = none)
    (hs : env.settings = some s) (hpat : ¬s.pat = "") (hrepos : ¬s.repos = [])
    (hflag : s.enableNewItems = true)
    (hsearch : env.searchResult = Except.ok items)
    (hok : (runWatchCycle env st).ok = true)
    (hn : n ∈ items) (hnew : 0 < n.createdAt) :
    st.runtime.lastCheckedAt.getD 0 = 0
    ∧ ∃ e ∈ (runWatchCycle env st).state.storage.notifications, e.id = "new:" ++ n.id := by
  refine ⟨by rw [hcp]; rfl, ?_⟩
  rw [runWatchCycle_eq_some env st s hs] at hok ⊢
  have hguard : ¬((s.pat == "" || s.repos.isEmpty) = true) := by
    intro hb
    rcases Bool.or_eq_true_iff.mp hb with h1 | h2
    · exact hpat (by simpa using h1)
    · exact hrepos (by simpa using h2)
  rw [if_neg hguard] at hok ⊢
  exact runWatchCycleAux_mem_new env st s items n hcp hsearch hok hn hflag hnew

def epochWitnessItem : ItemNode :=
  ⟨"I1", 1, "t", "u", 1, 1, "o", "r", false, "x", [], []⟩

def epochWitnessEnv : Env :=
  { settings := some ⟨"p", [⟨"o", "r"⟩], 5, true, true, true, true⟩
    now := 5
    viewerResult := .ok "alice"
    searchResult := .ok [epochWitnessItem]
    threadsResult := .error () }

def epochWitnessSt : St :=
  ⟨⟨some "alice", none⟩, ⟨[], 0, [], none⟩⟩

theorem first_run_epoch_default_witness :
    epochWitnessSt.runtime.lastCheckedAt.getD 0 = 0
    ∧ ∃ e ∈ (runWatchCycle epochWitnessEnv epochWitnessSt).state.storage.notifications,
        e.id = "new:" ++ epochWitnessItem.id :=
  first_run_epoch_default epochWitnessEnv epochWitnessSt
    ⟨"p", [⟨"o", "r"⟩], 5, true, true, true, true⟩ [epochWitnessItem] epochWitnessItem
    rfl rfl (by decide) (by decide) rfl rfl (by decide) (by decide) (by decide)

def dupRunPrItem : ItemNode :=
  { id := "PR1", number := 7, title := "t", url := "u", createdAt := 0, updatedAt := 5,
    owner := "o", repo := "r", isPullRequest := true, body := "x", assignees := [],
    comments := [] }

def dupRunThread (tid cid1 cid2 : String) : ReviewThread :=
  { id := tid, isResolved := false,
    comments :=
      [ { id := cid1, body := "hi @alice", author := "bob", createdAt := 0 }
      , { id := cid2, body := "reply", author := "bob", createdAt := 5 } ] }

def dupRunEnv : Env :=
  { settings := some
      { pat := "p", repos := [⟨"o", "r"⟩], intervalMinutes := 5,
        enableNewItems := true, enableMentions := true,
        enableMentionThreads := true, enableAssigneeComments := true }
    now := 9
    viewerResult := .ok "alice"
    searchResult := .ok [dupRunPrItem]
    threadsResult := .ok
      [ { id := "PR1", number := 7, title := "t", url := "u", owner := "o", repo := "r",
          isPullRequest := false,
          reviewThreads := [dupRunThread "T1" "c1" "c2", dupRunThread "T2" "c3" "c4"] } ] }

def dupRunSt : St :=
  { runtime := { viewerLogin := some "alice", lastCheckedAt := some 1 }
    storage := { notifications := [], badgeCount := 0, readNotificationIds := [],
                 lastCheckedAt := some 1 } }

/-- C1 failing run: one cycle whose thread-search response holds a single
pull request `PR1` with two qualifying unresolved review threads.  Starting
from an empty store, the merge appends BOTH thread candidates — the persisted
list ends with two entries sharing the id `"thread:PR1"` and the badge
counter rises by 2 — because the merge's `existingIds` set is computed once
from the pre-merge list and never updated inside the append loop.  This
violates the dedup-key uniqueness invariant of the claim. -/
theorem thread_dup_same_pr_run :
    ((runWatchCycle dupRunEnv dupRunSt).state.storage.notifications.map (fun n => n.id))
      = ["thread:PR1", "thread:PR1"]
    ∧ (runWatchCycle dupRunEnv dupRunSt).state.storage.badgeCount = 2 := by
  decide

def mergeWitnessNotif : StoredNotification :=
  ⟨"new:I1", .new, false, "o", "r", 1, "t", "u", 0⟩

theorem merge_idempotent_across_cycles_witness :
    (mergeStep (mergeStep [] 0 [mergeWitnessNotif]).1 (mergeStep [] 0 [mergeWitnessNotif]).2
        [mergeWitnessNotif]).1.countP (fun n => n.id == "new:I1")
      ≤ ([] : List StoredNotification).countP (fun n => n.id == "new:I1") + 1 :=
  (merge_idempotent_across_cycles [] 0 [mergeWitnessNotif] [mergeWitnessNotif] "new:I1"
    (by decide)).2.1

def threadWitnessThread : ReviewThread :=
  ⟨"T1", false, [⟨"c1", "ping @alice", "bob", 0⟩, ⟨"c2", "done", "bob", 5⟩]⟩

def threadWitnessPr : PrNode :=
  ⟨"PR1", 7, "t", "u", "o", "r", true, [threadWitnessThread]⟩

theorem thread_candidate_rule_witness :
    (threadWitnessPr, threadWitnessThread) ∈ collectMentionThreadItems "alice" 1 [threadWitnessPr] :=
  (thread_candidate_rule "alice" 1 [threadWitnessPr] threadWitnessPr threadWitnessThread 0).1.mpr
    ⟨by decide, by decide, rfl,
      ⟨⟨"c1", "ping @alice", "bob", 0⟩, by decide, by decide, by decide⟩,
      ⟨⟨"c2", "done", "bob", 5⟩, by decide, by decide⟩⟩

def isNewWitnessItem : ItemNode :=
  ⟨"I1", 1, "t", "u", 2, 2, "o", "r", false, "", [], []⟩

def isNewWitnessSettings : Settings :=
  ⟨"p", [], 5, true, true, true, true⟩

theorem is_new_strict_witness :
    isNewWitnessItem ∈ (classifyItems isNewWitnessSettings "alice" 1 [isNewWitnessItem]).newItems :=
  (is_new_strict 1 isNewWitnessItem isNewWitnessSettings "alice" [isNewWitnessItem]).2.2.mpr
    ⟨by decide, rfl, by decide⟩

theorem build_repo_query_shape_witness :
    buildRepoQuery [] "C" "me"
      = "is:open (created:>" ++ "C" ++ " OR mentions:" ++ "me"
          ++ " OR assignee:" ++ "me" ++ ")" :=
  (build_repo_query_shape [] "C" "me").1 rfl
